import Mathlib

/-!
Verification of `dagster_tableau/resources.py` (the Tableau content fetcher and
asset-spec translator of the dagster repository).

The embedding models:
  * semi-structured JSON payloads (`JValue`) with Python dictionary semantics
    (insertion-ordered association lists, replace-in-place on key collision);
  * the Python-level fallible operations used by the source (`d[k]`, `d.get`,
    iteration, `{**d, k: v}` merge, dict membership and assignment), each of
    which can raise (`PyError`);
  * the pure snapshot-building loop of
    `BaseTableauWorkspace.fetch_tableau_workspace_data` (resources.py lines
    296-324), factored over the client responses;
  * the client/session layer (`sign_in`, `sign_out`, `get_workbooks`,
    `get_workbook` with their `@cached_method` caches, and the
    `get_client` context manager, which in the source has no try/finally),
    as explicit state-passing over a client state plus a trace of remote
    calls, with the remote endpoints abstracted as an oracle (`Remote`);
  * the translator step of `build_asset_specs`; the translator module itself
    (`dagster_tableau/translator.py`) is not part of the sources, so the
    descriptor shape is modelled from the spec where noted.
-/

mutual
/-- JSON-like Python values, as delivered by `response.json()`.  Objects are
insertion-ordered field lists (Python dicts). -/
inductive JValue where
  | null : JValue
  | str : String → JValue
  | num : Int → JValue
  | arr : JArray → JValue
  | obj : JFields → JValue
deriving DecidableEq

inductive JArray where
  | nil : JArray
  | cons : JValue → JArray → JArray
deriving DecidableEq

inductive JFields where
  | nil : JFields
  | cons : String → JValue → JFields → JFields
deriving DecidableEq
end

def JArray.toList : JArray → List JValue
  | .nil => []
  | .cons v rest => v :: rest.toList

def JFields.toList : JFields → List (String × JValue)
  | .nil => []
  | .cons k v rest => (k, v) :: rest.toList

/-- First-match field lookup in a JSON object, Python `d[k]` / `d.get(k)`. -/
def JFields.lookup : JFields → String → Option JValue
  | .nil, _ => none
  | .cons k v rest, key => if k = key then some v else rest.lookup key

/-- Python dict assignment `d[k] = v`: replace the value in place if the key is
present (keeping its position), otherwise append the new entry at the end. -/
def JFields.set : JFields → String → JValue → JFields
  | .nil, key, v => .cons key v .nil
  | .cons k w rest, key, v =>
    if k = key then .cons key v rest else .cons k w (rest.set key v)

/-- Python truthiness of a JSON value (`if view_id:`): `None`, `""`, `0`, `[]`
and `{}` are falsy. -/
def JValue.truthy : JValue → Bool
  | .null => false
  | .str s => s ≠ ""
  | .num n => n ≠ 0
  | .arr xs => xs ≠ .nil
  | .obj fs => fs ≠ .nil

/-- Python hashability: lists and dicts cannot be dict keys. -/
def JValue.hashable : JValue → Bool
  | .arr _ => false
  | .obj _ => false
  | _ => true

/-- Total observation `d.get(k, dflt)` used by the specification-side
functions; on non-objects it returns the default. -/
def JValue.getD (v : JValue) (k : String) (dflt : JValue) : JValue :=
  match v with
  | .obj fs => (fs.lookup k).getD dflt
  | _ => dflt

/-- Total observation of a value as a list; non-arrays observe as `[]`. -/
def JValue.asList : JValue → List JValue
  | .arr xs => xs.toList
  | _ => []

/-- Errors raised by the Python code paths modelled here. `httpError` stands
for `requests.HTTPError` out of `Response.raise_for_status`. -/
inductive PyError where
  | keyError (k : String)
  | indexError
  | typeError
  | attributeError
  | httpError (status : Nat)
deriving DecidableEq

/-- Insertion-ordered association list standing for a Python dict with
arbitrary (hashable) keys.  `dictMem` is Python `k in d`. -/
def dictMem [DecidableEq κ] : List (κ × β) → κ → Bool
  | [], _ => false
  | e :: rest, k => e.1 = k || dictMem rest k

def dictLookup [DecidableEq κ] : List (κ × β) → κ → Option β
  | [], _ => none
  | e :: rest, k => if e.1 = k then some e.2 else dictLookup rest k

/-- Python dict assignment on the association list: replace in place, keeping
the position of an existing key, else append. -/
def dictSet [DecidableEq κ] : List (κ × β) → κ → β → List (κ × β)
  | [], k, v => [(k, v)]
  | e :: rest, k, v => if e.1 = k then (k, v) :: rest else e :: dictSet rest k v

def dictKeys (d : List (κ × β)) : List κ :=
  d.map Prod.fst

/-- `TableauContentType` from `dagster_tableau.translator`, as used by
`fetch_tableau_workspace_data`. -/
inductive TableauContentType where
  | WORKBOOK : TableauContentType
  | VIEW : TableauContentType
  | DATA_SOURCE : TableauContentType
deriving DecidableEq

/-- `TableauContentData(content_type=..., properties=...)` as constructed by
`fetch_tableau_workspace_data`. -/
structure TableauContentData where
  content_type : TableauContentType
  properties : JValue
deriving DecidableEq

abbrev TableauDict := List (JValue × TableauContentData)

/-- `TableauWorkspaceData(site_name=..., workbooks_by_id=..., views_by_id=...,
data_sources_by_id=...)` as constructed at the end of
`fetch_tableau_workspace_data`. -/
structure TableauWorkspaceData where
  site_name : String
  workbooks_by_id : TableauDict
  views_by_id : TableauDict
  data_sources_by_id : TableauDict
deriving DecidableEq

/-- Python subscript `v[k]` on a payload: `KeyError` when the key is absent,
`TypeError` when `v` is not a dict. -/
def pySubscript : JValue → String → Except PyError JValue
  | .obj fs, k =>
    match fs.lookup k with
    | some v => .ok v
    | none => .error (.keyError k)
  | _, _ => .error .typeError

/-- Python subscript `v[i]` with a numeric index on a payload. -/
def pyIndex : JValue → Nat → Except PyError JValue
  | .arr xs, i =>
    match xs.toList.get? i with
    | some v => .ok v
    | none => .error .indexError
  | _, _ => .error .typeError

/-- Python iteration `for x in v`: arrays yield their elements, dicts yield
their keys, strings yield their characters; other values raise `TypeError`. -/
def pyIter : JValue → Except PyError (List JValue)
  | .arr xs => .ok xs.toList
  | .obj fs => .ok (fs.toList.map fun e => .str e.1)
  | .str s => .ok (s.data.map fun c => .str (String.singleton c))
  | _ => .error .typeError

/-- Python `v.get(k, dflt)`: only dicts have `.get`. -/
def pyDictGet (v : JValue) (k : String) (dflt : JValue) : Except PyError JValue :=
  match v with
  | .obj fs => .ok ((fs.lookup k).getD dflt)
  | _ => .error .attributeError

/-- Python `{**v, k: w}`: dict unpacking followed by one literal entry. -/
def pyMergeField (v : JValue) (k : String) (w : JValue) : Except PyError JValue :=
  match v with
  | .obj fs => .ok (.obj (fs.set k w))
  | _ => .error .typeError

/-- Python `k in d` on a dict with a payload-valued key: unhashable keys raise
`TypeError`. -/
def pyDictMem (d : TableauDict) (k : JValue) : Except PyError Bool :=
  if k.hashable then .ok (dictMem d k) else .error .typeError

/-- Python `d[k] = v` on a dict with a payload-valued key. -/
def pyDictSet (d : TableauDict) (k : JValue) (v : TableauContentData) :
    Except PyError TableauDict :=
  if k.hashable then .ok (dictSet d k v) else .error .typeError

/-! ## Snapshot construction (`fetch_tableau_workspace_data`, lines 296-324)

The loop body makes no client calls below the per-workbook
`client.get_workbook(...)` request, so it is embedded as pure fallible
functions over the delivered payloads, one function per Python loop level. -/

/-- Lines 319-324: registration of one published data source payload.
`data_source_id = published_data_source_data["luid"]`; register it only if it
is truthy and not yet present (first occurrence wins, later ones ignored). -/
def dsRegister (data_sources_by_id : TableauDict) (published : JValue) :
    Except PyError TableauDict :=
  match pySubscript published "luid" with
  | .error e => .error e
  | .ok data_source_id =>
    if data_source_id.truthy then
      match pyDictMem data_sources_by_id data_source_id with
      | .error e => .error e
      | .ok true => .ok data_sources_by_id
      | .ok false =>
        pyDictSet data_sources_by_id data_source_id
          ⟨.DATA_SOURCE, published⟩
    else .ok data_sources_by_id

/-- Inner `for published_data_source_data in ...` loop over a list of payloads. -/
def dsRegisterList : TableauDict → List JValue → Except PyError TableauDict
  | d, [] => .ok d
  | d, p :: ps =>
    match dsRegister d p with
    | .error e => .error e
    | .ok d2 => dsRegisterList d2 ps

/-- Lines 316-318: one embedded data source:
`for ... in embedded_data_source_data.get("parentPublishedDatasources", [])`. -/
def embeddedRegister (d : TableauDict) (embedded : JValue) :
    Except PyError TableauDict :=
  match pyDictGet embedded "parentPublishedDatasources" (.arr .nil) with
  | .error e => .error e
  | .ok v =>
    match pyIter v with
    | .error e => .error e
    | .ok published_list => dsRegisterList d published_list

/-- `for embedded_data_source_data in ...` loop. -/
def embeddedRegisterList : TableauDict → List JValue → Except PyError TableauDict
  | d, [] => .ok d
  | d, e :: es =>
    match embeddedRegister d e with
    | .error err => .error err
    | .ok d2 => embeddedRegisterList d2 es

/-- Lines 307-324, one iteration of `for view_data in workbook_data["sheets"]`:
read `view_data["luid"]`; if truthy, register the view under it with the
payload augmented by `{"workbook": {"luid": workbook_id}}`; then scan
`view_data.get("parentEmbeddedDatasources", [])` for published data sources. -/
def processSheet (workbook_id : JValue) (acc : TableauDict × TableauDict)
    (view_data : JValue) : Except PyError (TableauDict × TableauDict) :=
  match pySubscript view_data "luid" with
  | .error e => .error e
  | .ok view_id =>
    let viewsStep : Except PyError TableauDict :=
      if view_id.truthy then
        match pyMergeField view_data "workbook"
            (.obj (.cons "luid" workbook_id .nil)) with
        | .error e => .error e
        | .ok augmented_view_data =>
          pyDictSet acc.1 view_id ⟨.VIEW, augmented_view_data⟩
      else .ok acc.1
    match viewsStep with
    | .error e => .error e
    | .ok views =>
      match pyDictGet view_data "parentEmbeddedDatasources" (.arr .nil) with
      | .error e => .error e
      | .ok v =>
        match pyIter v with
        | .error e => .error e
        | .ok embedded_list =>
          match embeddedRegisterList acc.2 embedded_list with
          | .error e => .error e
          | .ok ds => .ok (views, ds)

/-- The `for view_data in workbook_data["sheets"]` loop. -/
def processSheetList (workbook_id : JValue) :
    TableauDict × TableauDict → List JValue →
    Except PyError (TableauDict × TableauDict)
  | acc, [] => .ok acc
  | acc, s :: rest =>
    match processSheet workbook_id acc s with
    | .error e => .error e
    | .ok acc2 => processSheetList workbook_id acc2 rest

/-- The three dict locals of the fetch loop (lines 298-300). -/
structure SnapshotAcc where
  workbooks_by_id : TableauDict
  views_by_id : TableauDict
  data_sources_by_id : TableauDict
deriving DecidableEq

/-- Lines 302-324, one iteration of `for workbook_id in workbook_ids`, given
the `get_workbook` response:
`workbook_data = response["data"]["workbooks"][0]`, register the workbook,
then walk its sheets. -/
def processWorkbook (acc : SnapshotAcc) (workbook_id : JValue)
    (response : JValue) : Except PyError SnapshotAcc :=
  match pySubscript response "data" with
  | .error e => .error e
  | .ok data_val =>
    match pySubscript data_val "workbooks" with
    | .error e => .error e
    | .ok workbooks_val =>
      match pyIndex workbooks_val 0 with
      | .error e => .error e
      | .ok workbook_data =>
        match pyDictSet acc.workbooks_by_id workbook_id
            ⟨.WORKBOOK, workbook_data⟩ with
        | .error e => .error e
        | .ok workbooks =>
          match pySubscript workbook_data "sheets" with
          | .error e => .error e
          | .ok sheets_val =>
            match pyIter sheets_val with
            | .error e => .error e
            | .ok sheets =>
              match processSheetList workbook_id
                  (acc.views_by_id, acc.data_sources_by_id) sheets with
              | .error e => .error e
              | .ok vd => .ok ⟨workbooks, vd.1, vd.2⟩

/-- The whole `for workbook_id in workbook_ids` loop, given the
`(workbook_id, get_workbook response)` pairs in fetch order. -/
def processWorkbookList : SnapshotAcc → List (JValue × JValue) →
    Except PyError SnapshotAcc
  | acc, [] => .ok acc
  | acc, wr :: rest =>
    match processWorkbook acc wr.1 wr.2 with
    | .error e => .error e
    | .ok acc2 => processWorkbookList acc2 rest

/-- Lines 295-296: `workbooks_data = client.get_workbooks()["workbooks"]` and
`workbook_ids = [workbook["id"] for workbook in workbooks_data["workbook"]]`. -/
def extractWorkbookIds (workbooks_response : JValue) :
    Except PyError (List JValue) :=
  match pySubscript workbooks_response "workbooks" with
  | .error e => .error e
  | .ok workbooks_data =>
    match pySubscript workbooks_data "workbook" with
    | .error e => .error e
    | .ok v =>
      match pyIter v with
      | .error e => .error e
      | .ok workbook_list => workbook_list.mapM fun w => pySubscript w "id"

/-! ## Client and session layer (`BaseTableauClient`, `get_client`)

The remote endpoints (`requests.request` round trips) are abstracted as an
oracle `Remote`; the mutable attributes of the client instance
(`_api_token`, `_site_id`, and the `@cached_method` caches of
`get_workbooks`/`get_workbook`) are explicit state, together with a trace of
the remote calls performed. -/

/-- The mutable state of a `BaseTableauClient` instance: `_api_token`,
`_site_id`, and the per-instance `@cached_method` caches. -/
structure ClientState where
  api_token : Option String
  site_id : Option String
  workbooks_cache : Option JValue
  workbook_cache : List (JValue × JValue)
deriving DecidableEq

/-- One remote round trip performed by the client. -/
inductive CallEvent where
  | signInCall : CallEvent
  | signOutCall : CallEvent
  | workbooksCall : CallEvent
  | workbookCall : JValue → CallEvent
deriving DecidableEq

/-- The remote Tableau endpoints, as an oracle over the credentials state the
client sends (auth token, site id). -/
structure Remote where
  signin_response : Except PyError (String × String)
  workbooks_response : Option String → Option String → Except PyError JValue
  workbook_response : Option String → JValue → Except PyError JValue
  signout_response : Option String → Except PyError Unit

/-- Program state threaded through the client methods: the client instance
plus the trace of remote calls. -/
structure Ctx where
  client : ClientState
  events : List CallEvent
deriving DecidableEq

/-- Outcome of a stateful Python computation: a value or a raised error, in
both cases with the state at that point (Python mutations persist when an
exception propagates). -/
inductive PyResult (α : Type) where
  | ok : α → Ctx → PyResult α
  | error : PyError → Ctx → PyResult α
deriving DecidableEq

/-- A stateful Python computation over the client. -/
def PyM (α : Type) : Type := Ctx → PyResult α

/-- `BaseTableauClient.sign_in` (lines 112-143): one signin round trip; on
success store `_api_token` and `_site_id` from the response. -/
def sign_in (r : Remote) : PyM Unit := fun s =>
  let s1 : Ctx := { s with events := s.events ++ [CallEvent.signInCall] }
  match r.signin_response with
  | .error e => .error e s1
  | .ok ts =>
    .ok () { s1 with
      client := { s1.client with api_token := some ts.1, site_id := some ts.2 } }

/-- `BaseTableauClient.sign_out` (lines 145-149): unconditionally issue the
signout request (with whatever `_api_token` currently is); only after a
successful response clear `_api_token` and `_site_id`.  The caches are not
touched. -/
def sign_out (r : Remote) : PyM Unit := fun s =>
  let s1 : Ctx := { s with events := s.events ++ [CallEvent.signOutCall] }
  match r.signout_response s.client.api_token with
  | .error e => .error e s1
  | .ok _ =>
    .ok () { s1 with
      client := { s1.client with api_token := none, site_id := none } }

/-- `BaseTableauClient.get_workbooks` (lines 100-104) under `@cached_method`:
return the cached response if present, otherwise perform the request and
cache a successful result. -/
def get_workbooks (r : Remote) : PyM JValue := fun s =>
  match s.client.workbooks_cache with
  | some v => .ok v s
  | none =>
    let s1 : Ctx := { s with events := s.events ++ [CallEvent.workbooksCall] }
    match r.workbooks_response s.client.api_token s.client.site_id with
    | .error e => .error e s1
    | .ok v =>
      .ok v { s1 with client := { s1.client with workbooks_cache := some v } }

/-- `BaseTableauClient.get_workbook` (lines 106-110) under `@cached_method`,
keyed by `workbook_id`. -/
def get_workbook (r : Remote) (workbook_id : JValue) : PyM JValue := fun s =>
  match dictLookup s.client.workbook_cache workbook_id with
  | some v => .ok v s
  | none =>
    let s1 : Ctx :=
      { s with events := s.events ++ [CallEvent.workbookCall workbook_id] }
    match r.workbook_response s.client.api_token workbook_id with
    | .error e => .error e s1
    | .ok v =>
      .ok v { s1 with
        client := { s1.client with
          workbook_cache := dictSet s1.client.workbook_cache workbook_id v } }

/-- The `for workbook_id in workbook_ids` loop of
`fetch_tableau_workspace_data`, with the per-workbook `get_workbook` request
and the pure processing of its response.  An error from either propagates. -/
def fetchWorkbooksLoop (r : Remote) (acc : SnapshotAcc) :
    List JValue → PyM SnapshotAcc
  | [] => fun s => .ok acc s
  | wid :: rest => fun s =>
    match get_workbook r wid s with
    | .error e s2 => .error e s2
    | .ok response s2 =>
      match processWorkbook acc wid response with
      | .error e => .error e s2
      | .ok acc2 => fetchWorkbooksLoop r acc2 rest s2

/-- `BaseTableauWorkspace.fetch_tableau_workspace_data` (lines 285-331) run
under `get_client` (lines 277-283).  The source context manager is
`sign_in(); yield; sign_out()` with no try/finally, so an error raised
anywhere after a successful sign-in propagates without reaching `sign_out`,
and an error from `sign_in` itself prevents the body from ever running. -/
def fetch_tableau_workspace_data (r : Remote) (site_name : String) :
    PyM TableauWorkspaceData := fun s =>
  match sign_in r s with
  | .error e s1 => .error e s1
  | .ok _ s1 =>
    match get_workbooks r s1 with
    | .error e s2 => .error e s2
    | .ok workbooks_response s2 =>
      match extractWorkbookIds workbooks_response with
      | .error e => .error e s2
      | .ok workbook_ids =>
        match fetchWorkbooksLoop r ⟨[], [], []⟩ workbook_ids s2 with
        | .error e s3 => .error e s3
        | .ok acc s3 =>
          match sign_out r s3 with
          | .error e s4 => .error e s4
          | .ok _ s4 =>
            .ok ⟨site_name, acc.workbooks_by_id, acc.views_by_id,
                 acc.data_sources_by_id⟩ s4

/-! ## Translator step of `build_asset_specs` (lines 333-356)

`dagster_tableau/translator.py` is not among the sources; the descriptor
produced by `DagsterTableauTranslator.get_asset_spec` is modelled from the
spec. -/

/-- Modelled from the spec: a descriptor key is "derived deterministically
from content-type + external id + container id"
(`DagsterTableauTranslator` key derivation, translator.py missing from the
sources). -/
structure DescriptorKey where
  content_type : TableauContentType
  external_id : JValue
  container_id : JValue
deriving DecidableEq

/-- Modelled from the spec: a descriptor (`AssetSpec`) carries a key, a set of
dependency keys and a property bag (translator.py missing from the sources). -/
structure AssetSpecModel where
  key : DescriptorKey
  deps : List DescriptorKey
  properties : JValue
deriving DecidableEq

/-- The published data source payloads under one embedded data source entry. -/
def publishedOfEmbedded (embedded : JValue) : List JValue :=
  (embedded.getD "parentPublishedDatasources" (.arr .nil)).asList

/-- The published data source payloads nested under one sheet payload, in
order: `parentEmbeddedDatasources` flattened through
`parentPublishedDatasources`. -/
def publishedOfSheet (view_data : JValue) : List JValue :=
  ((view_data.getD "parentEmbeddedDatasources" (.arr .nil)).asList.map
    publishedOfEmbedded).flatten

/-- Modelled from the spec: the dependencies of an item descriptor are the
resolved sub-reference ids mentioned in its payload, with null ids skipped
(translator.py missing from the sources). -/
def viewDepLuids (props : JValue) : List JValue :=
  ((publishedOfSheet props).map fun p => p.getD "luid" .null).filter
    fun i => i.truthy

/-- Modelled from the spec: `DagsterTableauTranslator.get_asset_spec`
(translator.py missing from the sources).  An item (view) descriptor is keyed
by content type, its own luid and its workbook's luid, and depends on the
deduplicated data source descriptors for the published data sources its
payload mentions; a data source descriptor is keyed by its luid and has no
dependencies. -/
def get_asset_spec (content : TableauContentData) : AssetSpecModel :=
  match content.content_type with
  | .VIEW =>
    { key := ⟨.VIEW, content.properties.getD "luid" .null,
        (content.properties.getD "workbook" .null).getD "luid" .null⟩
      deps := (viewDepLuids content.properties).map
        fun i => ⟨.DATA_SOURCE, i, .null⟩
      properties := content.properties }
  | .DATA_SOURCE =>
    { key := ⟨.DATA_SOURCE, content.properties.getD "luid" .null, .null⟩
      deps := []
      properties := content.properties }
  | .WORKBOOK =>
    { key := ⟨.WORKBOOK, content.properties.getD "luid" .null, .null⟩
      deps := []
      properties := content.properties }

/-- Lines 351-356: `all_content = [*views_by_id.values(),
*data_sources_by_id.values()]` mapped through the translator. -/
def translateWorkspaceData (workspace_data : TableauWorkspaceData) :
    List AssetSpecModel :=
  ((workspace_data.views_by_id.map Prod.snd) ++
    (workspace_data.data_sources_by_id.map Prod.snd)).map get_asset_spec

/-- `BaseTableauWorkspace.build_asset_specs` (lines 333-356): fetch, then
translate. -/
def build_asset_specs (r : Remote) (site_name : String) :
    PyM (List AssetSpecModel) := fun s =>
  match fetch_tableau_workspace_data r site_name s with
  | .error e s1 => .error e s1
  | .ok workspace_data s1 => .ok (translateWorkspaceData workspace_data) s1

/-! ## Specification-side observations of a snapshot build

Pure functions describing the traversal order of the fetch loop, used to
state the invariants.  On the payload shapes where the fetch loop raises they
are immaterial: every theorem below that uses them assumes a successful
build. -/

/-- The truthy `luid` of a payload, if any: the id under which the fetch loop
registers it. -/
def truthyLuid (p : JValue) : Option JValue :=
  let i := p.getD "luid" .null
  if i.truthy then some i else none

/-- The ids newly registered by a first-occurrence-wins scan of the payload
list, given the ids already seen: each distinct truthy `luid` not seen
before, in first-seen order. -/
def newIds : List JValue → List JValue → List JValue
  | _, [] => []
  | seen, p :: ps =>
    match truthyLuid p with
    | none => newIds seen ps
    | some i => if i ∈ seen then newIds seen ps else i :: newIds (i :: seen) ps

/-- The first payload in the list whose truthy `luid` is `k`. -/
def firstPayloadWith (k : JValue) : List JValue → Option JValue
  | [] => none
  | p :: ps => if truthyLuid p = some k then some p else firstPayloadWith k ps

/-- The sheet payloads of one `get_workbook` response, in order:
`response["data"]["workbooks"][0]["sheets"]`. -/
def responseSheets (response : JValue) : List JValue :=
  ((((response.getD "data" .null).getD "workbooks" .null).asList.getD 0
    .null).getD "sheets" .null).asList

/-- All sheet payloads of a fetch, in traversal order by workbook then by
sheet. -/
def allSheetsOf (pairs : List (JValue × JValue)) : List JValue :=
  (pairs.map fun wr => responseSheets wr.2).flatten

/-- All published data source payloads of a fetch, in traversal order. -/
def allPublished (pairs : List (JValue × JValue)) : List JValue :=
  ((allSheetsOf pairs).map publishedOfSheet).flatten

/-! ## A concrete sample snapshot (used to instantiate theorems)

One workbook `W1` with two sheets: sheet `A` mentioning published data source
`X`, and sheet `B` mentioning `X` and `Y` — the spec scenario expecting 2
item descriptors, 2 sub-reference descriptors, A depending on X, B on X and
Y. -/

def jarr (l : List JValue) : JArray :=
  l.foldr JArray.cons .nil

def jobj (l : List (String × JValue)) : JFields :=
  l.foldr (fun kv acc => JFields.cons kv.1 kv.2 acc) .nil

def pubX : JValue :=
  .obj (jobj [("luid", .str "X"), ("name", .str "Data Source X")])

def pubY : JValue :=
  .obj (jobj [("luid", .str "Y"), ("name", .str "Data Source Y")])

def embedOf (pubs : List JValue) : JValue :=
  .obj (jobj [("parentPublishedDatasources", .arr (jarr pubs))])

def sheetA : JValue :=
  .obj (jobj [("luid", .str "A"), ("name", .str "Sheet A"),
    ("parentEmbeddedDatasources", .arr (jarr [embedOf [pubX]]))])

def sheetB : JValue :=
  .obj (jobj [("luid", .str "B"), ("name", .str "Sheet B"),
    ("parentEmbeddedDatasources", .arr (jarr [embedOf [pubX, pubY]]))])

def workbookW1 : JValue :=
  .obj (jobj [("luid", .str "W1"),
    ("sheets", .arr (jarr [sheetA, sheetB]))])

def responseW1 : JValue :=
  .obj (jobj [("data", .obj (jobj [("workbooks", .arr (jarr [workbookW1]))]))])

def samplePairs : List (JValue × JValue) :=
  [(.str "W1", responseW1)]

/-- The snapshot accumulator the fetch loop builds on the sample. -/
def sampleAcc : SnapshotAcc :=
  match processWorkbookList ⟨[], [], []⟩ samplePairs with
  | .ok acc => acc
  | .error _ => ⟨[], [], []⟩

/-- The state at the end of a stateful computation, whether it returned or
raised. -/
def resultCtx : PyResult α → Ctx
  | .ok _ s => s
  | .error _ s => s

/-- A fresh client: no token, no site id, empty caches, no calls yet. -/
def freshCtx : Ctx :=
  ⟨⟨none, none, none, []⟩, []⟩

/-- Remote whose sign-in succeeds but whose workbooks endpoint fails with
HTTP 500: the body of the `get_client` context raises after sign-in. -/
def remoteBodyFails : Remote :=
  ⟨.ok ("token", "site-id"),
   fun _ _ => .error (.httpError 500),
   fun _ _ => .error (.httpError 500),
   fun _ => .ok ()⟩

/-- Remote whose sign-in fails with HTTP 401 (bad credentials). -/
def remoteAuthFails : Remote :=
  ⟨.error (.httpError 401),
   fun _ _ => .error (.httpError 401),
   fun _ _ => .error (.httpError 401),
   fun _ => .ok ()⟩

/-- Remote that accepts a signout only with the valid token `tok`: a signout
request carrying no token is rejected with HTTP 401. -/
def remoteStrictSignout : Remote :=
  ⟨.ok ("tok", "site"),
   fun _ _ => .ok .null,
   fun _ _ => .ok .null,
   fun t => if t = some "tok" then .ok () else .error (.httpError 401)⟩

/-- A client that has already signed in with token `tok`. -/
def signedInCtx : Ctx :=
  ⟨⟨some "tok", some "site", none, []⟩, []⟩

/-- The `get_workbooks` REST response listing one workbook `W1`. -/
def workbooksIndexResponse : JValue :=
  .obj (jobj [("workbooks", .obj (jobj [("workbook",
    .arr (jarr [.obj (jobj [("id", .str "W1"),
      ("name", .str "Workbook W1")])]))]))])

/-- Remote on which a whole fetch cycle succeeds. -/
def remoteHealthy : Remote :=
  ⟨.ok ("tok", "site"),
   fun _ _ => .ok workbooksIndexResponse,
   fun _ _ => .ok responseW1,
   fun _ => .ok ()⟩

/-- State after one full fetch cycle on the healthy remote. -/
def afterCycle1 : Ctx :=
  resultCtx (fetch_tableau_workspace_data remoteHealthy "site" freshCtx)

/-- State after a second full fetch cycle on the healthy remote. -/
def afterCycle2 : Ctx :=
  resultCtx (fetch_tableau_workspace_data remoteHealthy "site" afterCycle1)

/-- A sheet payload whose `luid` is null (the view id is absent from the
payload), still mentioning published data source `X`. -/
def nullLuidSheet : JValue :=
  .obj (jobj [("luid", .null), ("name", .str "Nameless sheet"),
    ("parentEmbeddedDatasources", .arr (jarr [embedOf [pubX]]))])

def workbookW2 : JValue :=
  .obj (jobj [("luid", .str "W2"),
    ("sheets", .arr (jarr [nullLuidSheet]))])

def responseW2 : JValue :=
  .obj (jobj [("data", .obj (jobj [("workbooks", .arr (jarr [workbookW2]))]))])

def nullLuidPairs : List (JValue × JValue) :=
  [(.str "W2", responseW2)]

/-- The snapshot accumulator the fetch loop builds on the null-luid sample. -/
def nullLuidAcc : SnapshotAcc :=
  match processWorkbookList ⟨[], [], []⟩ nullLuidPairs with
  | .ok acc => acc
  | .error _ => ⟨[], [], []⟩

/-- A published data source payload whose `luid` is null. -/
def pubNull : JValue :=
  .obj (jobj [("luid", .null), ("name", .str "Unpublished")])

/-- The field list of sheet `A` (for reasoning about the augmented payload). -/
def sheetAFields : JFields :=
  jobj [("luid", .str "A"), ("name", .str "Sheet A"),
    ("parentEmbeddedDatasources", .arr (jarr [embedOf [pubX]]))]

/-- The views/data-sources accumulator after processing sheet `A` alone. -/
def c10Acc : TableauDict × TableauDict :=
  match processSheet (.str "W1") ([], []) (.obj sheetAFields) with
  | .ok acc => acc
  | .error _ => ([], [])


/-- A sheet field list with no `luid` field at all. -/
def noLuidFields : JFields :=
  jobj [("name", .str "Nameless")]

/-- The field list of the null-luid sheet. -/
def nullSheetFields : JFields :=
  jobj [("luid", .null), ("name", .str "Nameless sheet"),
    ("parentEmbeddedDatasources", .arr (jarr [embedOf [pubX]]))]

/-- The views/data-sources accumulator after processing the null-luid sheet
alone. -/
def nsAcc : TableauDict × TableauDict :=
  match processSheet (.str "W2") ([], []) (.obj nullSheetFields) with
  | .ok acc => acc
  | .error _ => ([], [])

/-- The sample workspace data. -/
def sampleWd : TableauWorkspaceData :=
  ⟨"site", sampleAcc.workbooks_by_id, sampleAcc.views_by_id,
    sampleAcc.data_sources_by_id⟩

/-- The effect of one first-occurrence-wins registration pass over the
payload list `xs` on the data source dict. -/
def DsStep (xs : List JValue) (d d2 : TableauDict) : Prop :=
  dictKeys d2 = dictKeys d ++ newIds (dictKeys d) xs
  ∧ (∀ k, dictMem d k = true → dictLookup d2 k = dictLookup d k)
  ∧ (∀ k, dictMem d k = false →
      dictLookup d2 k = (firstPayloadWith k xs).map
        fun p => (⟨.DATA_SOURCE, p⟩ : TableauContentData))

/-! ## Basic dictionary lemmas -/

theorem dictMem_iff_mem_keys [DecidableEq κ] (d : List (κ × β)) (k : κ) :
    dictMem d k = true ↔ k ∈ dictKeys d := by
  induction d with
  | nil => simp [dictMem, dictKeys]
  | cons e rest ih =>
    simp only [dictMem, dictKeys, List.map_cons, List.mem_cons, Bool.or_eq_true,
      decide_eq_true_eq] at ih ⊢
    constructor
    · rintro (h | h)
      · exact Or.inl h.symm
      · exact Or.inr (ih.mp h)
    · rintro (h | h)
      · exact Or.inl h.symm
      · exact Or.inr (ih.mpr h)

theorem dictMem_false_iff_lookup_none [DecidableEq κ] (d : List (κ × β))
    (k : κ) : dictMem d k = false ↔ dictLookup d k = none := by
  induction d with
  | nil => simp [dictMem, dictLookup]
  | cons e rest ih =>
    by_cases h : e.1 = k
    · simp [dictMem, dictLookup, h]
    · simp [dictMem, dictLookup, h, ih]

theorem dictKeys_set_of_mem [DecidableEq κ] (d : List (κ × β)) (k : κ)
    (v : β) (h : dictMem d k = true) :
    dictKeys (dictSet d k v) = dictKeys d := by
  induction d with
  | nil => simp [dictMem] at h
  | cons e rest ih =>
    by_cases he : e.1 = k
    · simp [dictSet, he, dictKeys]
    · simp [dictMem, he] at h
      simp [dictSet, he, dictKeys] at ih ⊢
      exact ih h

theorem dictKeys_set_of_not_mem [DecidableEq κ] (d : List (κ × β)) (k : κ)
    (v : β) (h : dictMem d k = false) :
    dictKeys (dictSet d k v) = dictKeys d ++ [k] := by
  induction d with
  | nil => simp [dictSet, dictKeys]
  | cons e rest ih =>
    by_cases he : e.1 = k
    · simp [dictMem, he] at h
    · simp [dictMem, he] at h
      simp [dictSet, he, dictKeys] at ih ⊢
      exact ih h

theorem dictLookup_set_self [DecidableEq κ] (d : List (κ × β)) (k : κ)
    (v : β) : dictLookup (dictSet d k v) k = some v := by
  induction d with
  | nil => simp [dictSet, dictLookup]
  | cons e rest ih =>
    by_cases he : e.1 = k
    · simp [dictSet, he, dictLookup]
    · simp [dictSet, he, dictLookup, ih]

theorem dictLookup_set_ne [DecidableEq κ] (d : List (κ × β)) (k k2 : κ)
    (v : β) (h : k2 ≠ k) :
    dictLookup (dictSet d k v) k2 = dictLookup d k2 := by
  induction d with
  | nil => simp [dictSet, dictLookup, h.symm]
  | cons e rest ih =>
    by_cases he : e.1 = k
    · subst he
      simp [dictSet, dictLookup, h.symm]
    · simp [dictSet, he, dictLookup, ih]

/-! ## Lemmas on the first-occurrence id scan `newIds` -/

theorem newIds_congr (ps : List JValue) :
    ∀ s1 s2 : List JValue, (∀ x, x ∈ s1 ↔ x ∈ s2) →
    newIds s1 ps = newIds s2 ps := by
  induction ps with
  | nil => intro s1 s2 _; rfl
  | cons p ps ih =>
    intro s1 s2 h
    simp only [newIds]
    cases truthyLuid p with
    | none => exact ih s1 s2 h
    | some i =>
      by_cases hi : i ∈ s1
      · simp [hi, (h i).mp hi, ih s1 s2 h]
      · have hi2 : i ∉ s2 := fun hx => hi ((h i).mpr hx)
        have hcons : ∀ x, x ∈ i :: s1 ↔ x ∈ i :: s2 := by
          intro x
          simp [h x]
        simp [hi, hi2, ih (i :: s1) (i :: s2) hcons]

theorem newIds_append (xs ys : List JValue) :
    ∀ s : List JValue,
    newIds s (xs ++ ys) = newIds s xs ++ newIds (newIds s xs ++ s) ys := by
  induction xs with
  | nil => intro s; simp [newIds]
  | cons x xs ih =>
    intro s
    simp only [List.cons_append, newIds, List.append_eq]
    cases truthyLuid x with
    | none => exact ih s
    | some i =>
      by_cases hi : i ∈ s
      · simp [hi, ih s]
      · simp only [hi, if_false]
        rw [ih (i :: s)]
        have hcongr : newIds (newIds (i :: s) xs ++ i :: s) ys
            = newIds ((i :: newIds (i :: s) xs) ++ s) ys := by
          apply newIds_congr
          intro z
          simp
          tauto
        rw [hcongr]
        simp

theorem mem_newIds (ps : List JValue) :
    ∀ s i, i ∈ newIds s ps ↔ (i ∉ s ∧ i ∈ ps.filterMap truthyLuid) := by
  induction ps with
  | nil => intro s i; simp [newIds]
  | cons p ps ih =>
    intro s i
    simp only [newIds]
    cases hp : truthyLuid p with
    | none => simp [List.filterMap_cons, hp, ih]
    | some j =>
      by_cases hj : j ∈ s
      · simp only [hj, if_true, List.filterMap_cons, hp, List.mem_cons, ih]
        constructor
        · rintro ⟨h1, h2⟩
          exact ⟨h1, Or.inr h2⟩
        · rintro ⟨h1, h2 | h2⟩
          · exact absurd (h2 ▸ hj) h1
          · exact ⟨h1, h2⟩
      · simp only [hj, if_false, List.mem_cons, List.filterMap_cons, hp, ih]
        constructor
        · rintro (h | ⟨h1, h2⟩)
          · subst h; exact ⟨hj, Or.inl rfl⟩
          · refine ⟨fun hx => h1 (Or.inr hx), Or.inr h2⟩
        · rintro ⟨h1, h2 | h2⟩
          · exact Or.inl h2
          · by_cases hij : i = j
            · exact Or.inl hij
            · exact Or.inr ⟨by simp [hij, h1], h2⟩

theorem newIds_nodup (ps : List JValue) :
    ∀ s, (newIds s ps).Nodup := by
  induction ps with
  | nil => intro s; simp [newIds]
  | cons p ps ih =>
    intro s
    simp only [newIds]
    cases truthyLuid p with
    | none => exact ih s
    | some i =>
      by_cases hi : i ∈ s
      · simp [hi, ih s]
      · simp only [hi, if_false, List.nodup_cons]
        refine ⟨fun hx => ?_, ih (i :: s)⟩
        exact ((mem_newIds ps (i :: s) i).mp hx).1 (List.mem_cons_self i s)

/-! ## Characterization of the data source registration step -/

theorem pySubscript_ok_getD (p : JValue) (k : String) (i dflt : JValue)
    (h : pySubscript p k = .ok i) : p.getD k dflt = i := by
  cases p with
  | obj fs =>
    cases hl : fs.lookup k with
    | none => simp [pySubscript, hl] at h
    | some v =>
      simp [pySubscript, hl] at h
      simp [JValue.getD, hl, h]
  | null => simp [pySubscript] at h
  | str s => simp [pySubscript] at h
  | num n => simp [pySubscript] at h
  | arr xs => simp [pySubscript] at h

theorem dsRegister_ok_cases (d : TableauDict) (p : JValue)
    (d2 : TableauDict) (h : dsRegister d p = .ok d2) :
    (truthyLuid p = none ∧ d2 = d) ∨
    (∃ i, truthyLuid p = some i ∧ dictMem d i = true ∧ d2 = d) ∨
    (∃ i, truthyLuid p = some i ∧ dictMem d i = false ∧
      d2 = dictSet d i ⟨.DATA_SOURCE, p⟩) := by
  unfold dsRegister at h
  cases hsub : pySubscript p "luid" with
  | error e => simp [hsub] at h
  | ok i =>
    have hget : p.getD "luid" .null = i := pySubscript_ok_getD p "luid" i .null hsub
    simp only [hsub] at h
    by_cases ht : i.truthy
    · simp only [ht, if_true] at h
      unfold pyDictMem at h
      by_cases hh : i.hashable
      · simp only [hh, if_true] at h
        cases hm : dictMem d i with
        | true =>
          simp only [hm] at h
          refine Or.inr (Or.inl ⟨i, ?_, hm, ?_⟩)
          · simp [truthyLuid, hget, ht]
          · cases h; rfl
        | false =>
          simp only [hm] at h
          unfold pyDictSet at h
          simp only [hh, if_true] at h
          refine Or.inr (Or.inr ⟨i, ?_, hm, ?_⟩)
          · simp [truthyLuid, hget, ht]
          · cases h; rfl
      · simp [hh] at h
    · simp only [ht, if_false] at h
      refine Or.inl ⟨?_, ?_⟩
      · simp [truthyLuid, hget, ht]
      · cases h; rfl

theorem dsRegisterList_keys (ps : List JValue) :
    ∀ d d2 : TableauDict, dsRegisterList d ps = .ok d2 →
    dictKeys d2 = dictKeys d ++ newIds (dictKeys d) ps := by
  induction ps with
  | nil =>
    intro d d2 h
    cases h
    simp [newIds]
  | cons p ps ih =>
    intro d d2 h
    unfold dsRegisterList at h
    cases hreg : dsRegister d p with
    | error e => simp [hreg] at h
    | ok d1 =>
      simp only [hreg] at h
      rcases dsRegister_ok_cases d p d1 hreg with
        ⟨hnone, heq⟩ | ⟨i, hsome, hmem, heq⟩ | ⟨i, hsome, hmem, heq⟩
      · rw [heq] at h
        rw [ih d d2 h]
        simp [newIds, hnone]
      · rw [heq] at h
        rw [ih d d2 h]
        have : i ∈ dictKeys d := (dictMem_iff_mem_keys d i).mp hmem
        simp [newIds, hsome, this]
      · rw [heq] at h
        have hkeys := dictKeys_set_of_not_mem d i (⟨.DATA_SOURCE, p⟩ :
          TableauContentData) hmem
        have hnotin : i ∉ dictKeys d := fun hx =>
          by simp [(dictMem_iff_mem_keys d i).mpr hx] at hmem
        rw [ih _ d2 h, hkeys]
        simp only [newIds, hsome, hnotin, if_false]
        rw [List.append_assoc]
        simp only [List.singleton_append]
        congr 2
        apply newIds_congr
        intro z
        simp [or_comm]

theorem dsRegisterList_preserve (ps : List JValue) :
    ∀ d d2 : TableauDict, dsRegisterList d ps = .ok d2 →
    ∀ k, dictMem d k = true → dictLookup d2 k = dictLookup d k := by
  induction ps with
  | nil =>
    intro d d2 h k _
    cases h
    rfl
  | cons p ps ih =>
    intro d d2 h k hk
    unfold dsRegisterList at h
    cases hreg : dsRegister d p with
    | error e => simp [hreg] at h
    | ok d1 =>
      simp only [hreg] at h
      rcases dsRegister_ok_cases d p d1 hreg with
        ⟨_, heq⟩ | ⟨i, _, _, heq⟩ | ⟨i, _, hmem, heq⟩
      · rw [heq] at h
        exact ih d d2 h k hk
      · rw [heq] at h
        exact ih d d2 h k hk
      · rw [heq] at h
        have hik : k ≠ i := fun hx => by rw [hx] at hk; rw [hk] at hmem; cases hmem
        have hmem1 : dictMem (dictSet d i ⟨.DATA_SOURCE, p⟩) k = true := by
          rw [dictMem_iff_mem_keys] at hk ⊢
          rw [dictKeys_set_of_not_mem d i _ hmem]
          exact List.mem_append_left _ hk
        rw [ih _ d2 h k hmem1]
        exact dictLookup_set_ne d i k _ hik

theorem dsRegisterList_first (ps : List JValue) :
    ∀ d d2 : TableauDict, dsRegisterList d ps = .ok d2 →
    ∀ k, dictMem d k = false →
    dictLookup d2 k = (firstPayloadWith k ps).map
      fun p => (⟨.DATA_SOURCE, p⟩ : TableauContentData) := by
  induction ps with
  | nil =>
    intro d d2 h k hk
    cases h
    simp [firstPayloadWith, (dictMem_false_iff_lookup_none d k).mp hk]
  | cons p ps ih =>
    intro d d2 h k hk
    unfold dsRegisterList at h
    cases hreg : dsRegister d p with
    | error e => simp [hreg] at h
    | ok d1 =>
      simp only [hreg] at h
      rcases dsRegister_ok_cases d p d1 hreg with
        ⟨hnone, heq⟩ | ⟨i, hsome, hmem, heq⟩ | ⟨i, hsome, hmem, heq⟩
      · rw [heq] at h
        rw [ih d d2 h k hk]
        simp [firstPayloadWith, hnone]
      · rw [heq] at h
        have hik : truthyLuid p ≠ some k := by
          rw [hsome]
          intro hx
          injection hx with hx
          rw [hx] at hmem
          rw [hmem] at hk
          cases hk
        rw [ih d d2 h k hk]
        simp [firstPayloadWith, hik]
      · rw [heq] at h
        by_cases hik : i = k
        · subst hik
          have hmem1 : dictMem (dictSet d i ⟨.DATA_SOURCE, p⟩) i = true := by
            rw [dictMem_iff_mem_keys, dictKeys_set_of_not_mem d i _ hmem]
            exact List.mem_append_right _ (List.mem_singleton.mpr rfl)
          rw [dsRegisterList_preserve ps _ d2 h i hmem1,
            dictLookup_set_self d i _]
          simp [firstPayloadWith, hsome]
        · have hk1 : dictMem (dictSet d i ⟨.DATA_SOURCE, p⟩) k = false := by
            cases hm1 : dictMem (dictSet d i ⟨.DATA_SOURCE, p⟩) k with
            | false => rfl
            | true =>
              rw [dictMem_iff_mem_keys, dictKeys_set_of_not_mem d i _ hmem] at hm1
              rcases List.mem_append.mp hm1 with hx | hx
              · rw [← dictMem_iff_mem_keys] at hx
                rw [hx] at hk
                cases hk
              · exact absurd (List.mem_singleton.mp hx).symm hik
          rw [ih _ d2 h k hk1]
          have hpk : truthyLuid p ≠ some k := by
            rw [hsome]
            intro hx
            injection hx with hx
            exact hik hx
          simp [firstPayloadWith, hpk]

/-! ## Agreement between Python iteration and the list observation

Whenever the loop body over the iterated elements succeeded, the iterated
value was (observably) a list: dict or string iteration yields key/character
elements on which the loop body raises at once. -/

theorem pyIter_dsRegisterList_asList (v : JValue) (l : List JValue)
    (d d2 : TableauDict) (h1 : pyIter v = .ok l)
    (h2 : dsRegisterList d l = .ok d2) : l = v.asList := by
  cases v with
  | arr xs =>
    simp [pyIter] at h1
    simp [JValue.asList, ← h1]
  | obj fs =>
    simp only [pyIter, Except.ok.injEq] at h1
    cases fs with
    | nil => simp [JFields.toList] at h1; simp [JValue.asList, ← h1]
    | cons k w rest =>
      simp only [JFields.toList, List.map_cons] at h1
      rw [← h1] at h2
      simp [dsRegisterList, dsRegister, pySubscript] at h2
  | str s =>
    simp only [pyIter, Except.ok.injEq] at h1
    rcases hd : s.data with _ | ⟨c, cs⟩
    · rw [hd] at h1
      simp at h1
      simp [JValue.asList, ← h1]
    · rw [hd] at h1
      simp only [List.map_cons] at h1
      rw [← h1] at h2
      simp [dsRegisterList, dsRegister, pySubscript] at h2
  | null => simp [pyIter] at h1
  | num n => simp [pyIter] at h1

theorem pyIter_embeddedRegisterList_asList (v : JValue) (l : List JValue)
    (d d2 : TableauDict) (h1 : pyIter v = .ok l)
    (h2 : embeddedRegisterList d l = .ok d2) : l = v.asList := by
  cases v with
  | arr xs =>
    simp [pyIter] at h1
    simp [JValue.asList, ← h1]
  | obj fs =>
    simp only [pyIter, Except.ok.injEq] at h1
    cases fs with
    | nil => simp [JFields.toList] at h1; simp [JValue.asList, ← h1]
    | cons k w rest =>
      simp only [JFields.toList, List.map_cons] at h1
      rw [← h1] at h2
      simp [embeddedRegisterList, embeddedRegister, pyDictGet] at h2
  | str s =>
    simp only [pyIter, Except.ok.injEq] at h1
    rcases hd : s.data with _ | ⟨c, cs⟩
    · rw [hd] at h1
      simp at h1
      simp [JValue.asList, ← h1]
    · rw [hd] at h1
      simp only [List.map_cons] at h1
      rw [← h1] at h2
      simp [embeddedRegisterList, embeddedRegister, pyDictGet] at h2
  | null => simp [pyIter] at h1
  | num n => simp [pyIter] at h1

theorem pyIter_processSheetList_asList (v : JValue) (l : List JValue)
    (wb : JValue) (acc acc2 : TableauDict × TableauDict)
    (h1 : pyIter v = .ok l) (h2 : processSheetList wb acc l = .ok acc2) :
    l = v.asList := by
  cases v with
  | arr xs =>
    simp [pyIter] at h1
    simp [JValue.asList, ← h1]
  | obj fs =>
    simp only [pyIter, Except.ok.injEq] at h1
    cases fs with
    | nil => simp [JFields.toList] at h1; simp [JValue.asList, ← h1]
    | cons k w rest =>
      simp only [JFields.toList, List.map_cons] at h1
      rw [← h1] at h2
      simp [processSheetList, processSheet, pySubscript] at h2
  | str s =>
    simp only [pyIter, Except.ok.injEq] at h1
    rcases hd : s.data with _ | ⟨c, cs⟩
    · rw [hd] at h1
      simp at h1
      simp [JValue.asList, ← h1]
    · rw [hd] at h1
      simp only [List.map_cons] at h1
      rw [← h1] at h2
      simp [processSheetList, processSheet, pySubscript] at h2
  | null => simp [pyIter] at h1
  | num n => simp [pyIter] at h1

/-! ## Lifting the registration invariants through the loop levels -/

theorem firstPayloadWith_append (k : JValue) (xs ys : List JValue) :
    firstPayloadWith k (xs ++ ys) =
      match firstPayloadWith k xs with
      | some p => some p
      | none => firstPayloadWith k ys := by
  induction xs with
  | nil => simp [firstPayloadWith]
  | cons x xs ih =>
    by_cases hx : truthyLuid x = some k
    · simp [firstPayloadWith, hx]
    · simp [firstPayloadWith, hx, ih]

theorem keys_compose (A B C : List JValue) (xs ys : List JValue)
    (h1 : B = A ++ newIds A xs) (h2 : C = B ++ newIds B ys) :
    C = A ++ newIds A (xs ++ ys) := by
  subst h1
  subst h2
  rw [newIds_append, ← List.append_assoc]
  congr 1
  apply newIds_congr
  intro z
  simp [or_comm]

theorem dsStep_of_registerList (ps : List JValue) (d d2 : TableauDict)
    (h : dsRegisterList d ps = .ok d2) : DsStep ps d d2 :=
  ⟨dsRegisterList_keys ps d d2 h,
   fun k hk => dsRegisterList_preserve ps d d2 h k hk,
   fun k hk => dsRegisterList_first ps d d2 h k hk⟩

theorem dsStep_compose (xs ys : List JValue) (d d1 d2 : TableauDict)
    (h1 : DsStep xs d d1) (h2 : DsStep ys d1 d2) :
    DsStep (xs ++ ys) d d2 := by
  obtain ⟨hk1, hp1, hf1⟩ := h1
  obtain ⟨hk2, hp2, hf2⟩ := h2
  refine ⟨keys_compose _ _ _ xs ys hk1 hk2, ?_, ?_⟩
  · intro k hk
    have hmem1 : dictMem d1 k = true := by
      rw [dictMem_iff_mem_keys] at hk ⊢
      rw [hk1]
      exact List.mem_append_left _ hk
    rw [hp2 k hmem1]
    exact hp1 k hk
  · intro k hk
    rw [firstPayloadWith_append]
    cases hfp : firstPayloadWith k xs with
    | some p =>
      have hl1 : dictLookup d1 k = some ⟨.DATA_SOURCE, p⟩ := by
        rw [hf1 k hk, hfp]
        rfl
      have hmem1 : dictMem d1 k = true := by
        cases hm : dictMem d1 k with
        | true => rfl
        | false =>
          rw [dictMem_false_iff_lookup_none] at hm
          rw [hm] at hl1
          cases hl1
      rw [hp2 k hmem1]
      exact hl1
    | none =>
      have hl1 : dictLookup d1 k = none := by
        rw [hf1 k hk, hfp]
        rfl
      have hmem1 : dictMem d1 k = false :=
        (dictMem_false_iff_lookup_none d1 k).mpr hl1
      exact hf2 k hmem1

theorem pyDictGet_ok_getD (v : JValue) (k : String) (dflt w : JValue)
    (h : pyDictGet v k dflt = .ok w) : v.getD k dflt = w := by
  cases v with
  | obj fs =>
    simp [pyDictGet] at h
    simp [JValue.getD, h]
  | null => simp [pyDictGet] at h
  | str s => simp [pyDictGet] at h
  | num n => simp [pyDictGet] at h
  | arr xs => simp [pyDictGet] at h

theorem dsStep_of_embeddedRegister (e : JValue) (d d2 : TableauDict)
    (h : embeddedRegister d e = .ok d2) :
    DsStep (publishedOfEmbedded e) d d2 := by
  unfold embeddedRegister at h
  cases hg : pyDictGet e "parentPublishedDatasources" (.arr .nil) with
  | error err => simp [hg] at h
  | ok v =>
    simp only [hg] at h
    cases hi : pyIter v with
    | error err => simp [hi] at h
    | ok pl =>
      simp only [hi] at h
      have hl : pl = v.asList := pyIter_dsRegisterList_asList v pl d d2 hi h
      have hv : e.getD "parentPublishedDatasources" (.arr .nil) = v :=
        pyDictGet_ok_getD e _ _ v hg
      have : publishedOfEmbedded e = pl := by
        rw [publishedOfEmbedded, hv, hl]
      rw [this]
      exact dsStep_of_registerList pl d d2 h

theorem dsStep_of_embeddedRegisterList (es : List JValue) :
    ∀ d d2 : TableauDict, embeddedRegisterList d es = .ok d2 →
    DsStep ((es.map publishedOfEmbedded).flatten) d d2 := by
  induction es with
  | nil =>
    intro d d2 h
    cases h
    refine ⟨by simp [newIds], fun k _ => rfl, fun k hk => ?_⟩
    simp [firstPayloadWith, (dictMem_false_iff_lookup_none d k).mp hk]
  | cons e es ih =>
    intro d d2 h
    unfold embeddedRegisterList at h
    cases hreg : embeddedRegister d e with
    | error err => simp [hreg] at h
    | ok d1 =>
      simp only [hreg] at h
      have h1 := dsStep_of_embeddedRegister e d d1 hreg
      have h2 := ih d1 d2 h
      have := dsStep_compose _ _ d d1 d2 h1 h2
      simpa using this

theorem processSheet_ok (wb : JValue) (acc : TableauDict × TableauDict)
    (sheet : JValue) (acc2 : TableauDict × TableauDict)
    (h : processSheet wb acc sheet = .ok acc2) :
    dictKeys acc2.1 = dictKeys acc.1 ++ newIds (dictKeys acc.1) [sheet]
    ∧ DsStep (publishedOfSheet sheet) acc.2 acc2.2 := by
  unfold processSheet at h
  cases hsub : pySubscript sheet "luid" with
  | error e => simp [hsub] at h
  | ok view_id =>
    simp only [hsub] at h
    have hget : sheet.getD "luid" .null = view_id :=
      pySubscript_ok_getD sheet "luid" view_id .null hsub
    cases ht : view_id.truthy with
    | false =>
      simp only [ht, Bool.false_eq_true, if_false] at h
      cases hg : pyDictGet sheet "parentEmbeddedDatasources" (.arr .nil) with
      | error e => simp [hg] at h
      | ok val =>
        simp only [hg] at h
        cases hi : pyIter val with
        | error e => simp [hi] at h
        | ok embedded_list =>
          simp only [hi] at h
          cases hel : embeddedRegisterList acc.2 embedded_list with
          | error e => simp [hel] at h
          | ok ds =>
            simp only [hel, Except.ok.injEq] at h
            have hpub : publishedOfSheet sheet =
                (embedded_list.map publishedOfEmbedded).flatten := by
              rw [publishedOfSheet, pyDictGet_ok_getD sheet _ _ val hg,
                pyIter_embeddedRegisterList_asList val embedded_list _ _ hi hel]
            constructor
            · rw [← h]
              simp [newIds, truthyLuid, hget, ht]
            · rw [← h, hpub]
              exact dsStep_of_embeddedRegisterList embedded_list acc.2 ds hel
    | true =>
      simp only [ht, if_true] at h
      cases hmf : pyMergeField sheet "workbook" (.obj (.cons "luid" wb .nil)) with
      | error e => simp [hmf] at h
      | ok aug =>
        simp only [hmf] at h
        unfold pyDictSet at h
        cases hh : view_id.hashable with
        | false => simp [hh] at h
        | true =>
          simp only [hh, if_true] at h
          cases hg : pyDictGet sheet "parentEmbeddedDatasources" (.arr .nil) with
          | error e => simp [hg] at h
          | ok val =>
            simp only [hg] at h
            cases hi : pyIter val with
            | error e => simp [hi] at h
            | ok embedded_list =>
              simp only [hi] at h
              cases hel : embeddedRegisterList acc.2 embedded_list with
              | error e => simp [hel] at h
              | ok ds =>
                simp only [hel, Except.ok.injEq] at h
                have hpub : publishedOfSheet sheet =
                    (embedded_list.map publishedOfEmbedded).flatten := by
                  rw [publishedOfSheet, pyDictGet_ok_getD sheet _ _ val hg,
                    pyIter_embeddedRegisterList_asList val embedded_list _ _ hi hel]
                constructor
                · rw [← h]
                  simp only [newIds, truthyLuid, hget, ht, if_true]
                  cases hm : dictMem acc.1 view_id with
                  | true =>
                    have : view_id ∈ dictKeys acc.1 :=
                      (dictMem_iff_mem_keys acc.1 view_id).mp hm
                    simp [this, newIds, dictKeys_set_of_mem acc.1 view_id _ hm]
                  | false =>
                    have : view_id ∉ dictKeys acc.1 := fun hx => by
                      rw [(dictMem_iff_mem_keys acc.1 view_id).mpr hx] at hm
                      cases hm
                    simp [this, newIds,
                      dictKeys_set_of_not_mem acc.1 view_id _ hm]
                · rw [← h, hpub]
                  exact dsStep_of_embeddedRegisterList embedded_list acc.2 ds hel

theorem dsStep_nil (d : TableauDict) : DsStep [] d d := by
  refine ⟨by simp [newIds], fun k _ => rfl, fun k hk => ?_⟩
  simp [firstPayloadWith, (dictMem_false_iff_lookup_none d k).mp hk]

theorem processSheetList_ok (wb : JValue) (sheets : List JValue) :
    ∀ acc acc2 : TableauDict × TableauDict,
    processSheetList wb acc sheets = .ok acc2 →
    dictKeys acc2.1 = dictKeys acc.1 ++ newIds (dictKeys acc.1) sheets
    ∧ DsStep ((sheets.map publishedOfSheet).flatten) acc.2 acc2.2 := by
  induction sheets with
  | nil =>
    intro acc acc2 h
    cases h
    exact ⟨by simp [newIds], dsStep_nil _⟩
  | cons s rest ih =>
    intro acc acc2 h
    unfold processSheetList at h
    cases hps : processSheet wb acc s with
    | error e => simp [hps] at h
    | ok acc1 =>
      simp only [hps] at h
      obtain ⟨hv1, hd1⟩ := processSheet_ok wb acc s acc1 hps
      obtain ⟨hv2, hd2⟩ := ih acc1 acc2 h
      constructor
      · have := keys_compose (dictKeys acc.1) (dictKeys acc1.1)
          (dictKeys acc2.1) [s] rest hv1 hv2
        simpa using this
      · have := dsStep_compose _ _ acc.2 acc1.2 acc2.2 hd1 hd2
        simpa using this

theorem pyIndex_ok_getD (v : JValue) (w : JValue)
    (h : pyIndex v 0 = .ok w) : v.asList.getD 0 .null = w := by
  cases v with
  | arr xs =>
    cases hx : xs.toList with
    | nil => simp [pyIndex, hx] at h
    | cons a t =>
      simp [pyIndex, hx] at h
      simp [JValue.asList, hx, List.getD, h]
  | null => simp [pyIndex] at h
  | str s => simp [pyIndex] at h
  | num n => simp [pyIndex] at h
  | obj fs => simp [pyIndex] at h

theorem processWorkbook_ok (acc : SnapshotAcc) (wid response : JValue)
    (acc2 : SnapshotAcc) (h : processWorkbook acc wid response = .ok acc2) :
    dictKeys acc2.views_by_id = dictKeys acc.views_by_id ++
      newIds (dictKeys acc.views_by_id) (responseSheets response)
    ∧ DsStep (((responseSheets response).map publishedOfSheet).flatten)
        acc.data_sources_by_id acc2.data_sources_by_id := by
  unfold processWorkbook at h
  cases h1 : pySubscript response "data" with
  | error e => simp [h1] at h
  | ok dv =>
    simp only [h1] at h
    cases h2 : pySubscript dv "workbooks" with
    | error e => simp [h2] at h
    | ok wv =>
      simp only [h2] at h
      cases h3 : pyIndex wv 0 with
      | error e => simp [h3] at h
      | ok workbook_data =>
        simp only [h3] at h
        cases h4 : pyDictSet acc.workbooks_by_id wid
            ⟨.WORKBOOK, workbook_data⟩ with
        | error e => simp [h4] at h
        | ok workbooks =>
          simp only [h4] at h
          cases h5 : pySubscript workbook_data "sheets" with
          | error e => simp [h5] at h
          | ok sv =>
            simp only [h5] at h
            cases h6 : pyIter sv with
            | error e => simp [h6] at h
            | ok sheets =>
              simp only [h6] at h
              cases h7 : processSheetList wid
                  (acc.views_by_id, acc.data_sources_by_id) sheets with
              | error e => simp [h7] at h
              | ok vd =>
                simp only [h7, Except.ok.injEq] at h
                have hrs : responseSheets response = sheets := by
                  rw [responseSheets,
                    pySubscript_ok_getD response "data" dv .null h1,
                    pySubscript_ok_getD dv "workbooks" wv .null h2,
                    pyIndex_ok_getD wv workbook_data h3,
                    pySubscript_ok_getD workbook_data "sheets" sv .null h5,
                    pyIter_processSheetList_asList sv sheets wid _ _ h6 h7]
                obtain ⟨hv, hd⟩ := processSheetList_ok wid sheets
                  (acc.views_by_id, acc.data_sources_by_id) vd h7
                rw [← h, hrs]
                exact ⟨hv, hd⟩

theorem processWorkbookList_ok (pairs : List (JValue × JValue)) :
    ∀ acc acc2 : SnapshotAcc, processWorkbookList acc pairs = .ok acc2 →
    dictKeys acc2.views_by_id = dictKeys acc.views_by_id ++
      newIds (dictKeys acc.views_by_id) (allSheetsOf pairs)
    ∧ DsStep (allPublished pairs) acc.data_sources_by_id
        acc2.data_sources_by_id := by
  induction pairs with
  | nil =>
    intro acc acc2 h
    cases h
    constructor
    · simp [newIds, allSheetsOf]
    · have := dsStep_nil acc.data_sources_by_id
      simpa [allPublished, allSheetsOf] using this
  | cons wr rest ih =>
    intro acc acc2 h
    unfold processWorkbookList at h
    cases hpw : processWorkbook acc wr.1 wr.2 with
    | error e => simp [hpw] at h
    | ok acc1 =>
      simp only [hpw] at h
      obtain ⟨hv1, hd1⟩ := processWorkbook_ok acc wr.1 wr.2 acc1 hpw
      obtain ⟨hv2, hd2⟩ := ih acc1 acc2 h
      have hsheets : allSheetsOf (wr :: rest) =
          responseSheets wr.2 ++ allSheetsOf rest := by
        simp [allSheetsOf]
      have hpubs : allPublished (wr :: rest) =
          ((responseSheets wr.2).map publishedOfSheet).flatten ++
            allPublished rest := by
        simp [allPublished, hsheets]
      constructor
      · rw [hsheets]
        exact keys_compose _ _ _ _ _ hv1 hv2
      · rw [hpubs]
        exact dsStep_compose _ _ _ _ _ hd1 hd2

/-! ## Field update lemmas for the augmented view payload -/

theorem JFields.lookup_set_self : ∀ (fs : JFields) (k : String) (v : JValue),
    (fs.set k v).lookup k = some v
  | .nil, k, v => by simp [JFields.set, JFields.lookup]
  | .cons k2 w rest, k, v => by
    by_cases hk : k2 = k
    · simp [JFields.set, hk, JFields.lookup]
    · simp [JFields.set, hk, JFields.lookup,
        JFields.lookup_set_self rest k v]

theorem JFields.lookup_set_ne : ∀ (fs : JFields) (k k2 : String) (v : JValue),
    k2 ≠ k → (fs.set k v).lookup k2 = fs.lookup k2
  | .nil, k, k2, v, h => by simp [JFields.set, JFields.lookup, h.symm]
  | .cons k3 w rest, k, k2, v, h => by
    by_cases hk : k3 = k
    · subst hk
      simp [JFields.set, JFields.lookup, h.symm]
    · simp [JFields.set, hk, JFields.lookup,
        JFields.lookup_set_ne rest k k2 v h]

/-! ## Claim theorems -/

/-- C2: for every snapshot build, each published data source id nested under
one or more views resolves to exactly one entry in `data_sources_by_id`: the
registered keys are exactly the distinct truthy ids mentioned anywhere in the
traversal (M entries for M distinct non-null ids, however many times each is
mentioned), each key appears once, the first occurrence of an id wins, and a
later occurrence of the same id is ignored, not merged. -/
theorem c2_data_source_dedup_first_wins (pairs : List (JValue × JValue))
    (w v d : TableauDict)
    (h : processWorkbookList ⟨[], [], []⟩ pairs = .ok ⟨w, v, d⟩) :
    dictKeys d = newIds [] (allPublished pairs)
    ∧ (dictKeys d).Nodup
    ∧ (∀ i, i ∈ dictKeys d ↔ i ∈ (allPublished pairs).filterMap truthyLuid)
    ∧ ∀ i, dictLookup d i = (firstPayloadWith i (allPublished pairs)).map
        fun p => (⟨.DATA_SOURCE, p⟩ : TableauContentData) := by
  obtain ⟨_, hkeys, _, hfirst⟩ := processWorkbookList_ok pairs ⟨[], [], []⟩
    ⟨w, v, d⟩ h
  have hk : dictKeys d = newIds [] (allPublished pairs) := by
    simpa [dictKeys] using hkeys
  refine ⟨hk, ?_, ?_, ?_⟩
  · rw [hk]
    exact newIds_nodup _ []
  · intro i
    rw [hk]
    simpa using mem_newIds (allPublished pairs) [] i
  · intro i
    exact hfirst i rfl

/-- Witness for C2 on the sample snapshot: one workbook with sheets `A`
(mentioning `X`) and `B` (mentioning `X` and `Y`). -/
theorem c2_witness :
    processWorkbookList ⟨[], [], []⟩ samplePairs
      = .ok ⟨sampleAcc.workbooks_by_id, sampleAcc.views_by_id,
        sampleAcc.data_sources_by_id⟩
    ∧ dictKeys sampleAcc.data_sources_by_id
      = newIds [] (allPublished samplePairs)
    ∧ dictKeys sampleAcc.data_sources_by_id = [.str "X", .str "Y"] :=
  ⟨rfl,
   (c2_data_source_dedup_first_wins samplePairs sampleAcc.workbooks_by_id
     sampleAcc.views_by_id sampleAcc.data_sources_by_id rfl).1,
   rfl⟩

/-- C4: the descriptor sequence of `build_asset_specs` consists of all item
(view) descriptors first — the view dict holding the distinct truthy view
ids in traversal order by workbook then by sheet, matching fetch order —
followed by all deduplicated data source descriptors in first-seen order. -/
theorem c4_descriptor_emission_order (site : String)
    (pairs : List (JValue × JValue)) (w v d : TableauDict)
    (h : processWorkbookList ⟨[], [], []⟩ pairs = .ok ⟨w, v, d⟩) :
    translateWorkspaceData ⟨site, w, v, d⟩
      = (v.map Prod.snd).map get_asset_spec
        ++ (d.map Prod.snd).map get_asset_spec
    ∧ dictKeys v = newIds [] (allSheetsOf pairs)
    ∧ dictKeys d = newIds [] (allPublished pairs) := by
  obtain ⟨hv, hd⟩ := processWorkbookList_ok pairs ⟨[], [], []⟩ ⟨w, v, d⟩ h
  refine ⟨by simp [translateWorkspaceData], ?_, ?_⟩
  · simpa [dictKeys] using hv
  · simpa [dictKeys] using hd.1

/-- Witness for C4 on the sample snapshot. -/
theorem c4_witness :
    processWorkbookList ⟨[], [], []⟩ samplePairs
      = .ok ⟨sampleAcc.workbooks_by_id, sampleAcc.views_by_id,
        sampleAcc.data_sources_by_id⟩
    ∧ translateWorkspaceData ⟨"site", sampleAcc.workbooks_by_id,
        sampleAcc.views_by_id, sampleAcc.data_sources_by_id⟩
      = (sampleAcc.views_by_id.map Prod.snd).map get_asset_spec
        ++ (sampleAcc.data_sources_by_id.map Prod.snd).map get_asset_spec
    ∧ dictKeys sampleAcc.views_by_id = [.str "A", .str "B"] :=
  ⟨rfl,
   (c4_descriptor_emission_order "site" samplePairs sampleAcc.workbooks_by_id
     sampleAcc.views_by_id sampleAcc.data_sources_by_id rfl).1,
   rfl⟩

/-- C5: translation is deterministic: applying the translate step of
`build_asset_specs` twice to the same `TableauWorkspaceData` yields
descriptor sequences with identical keys, identical order and identical
dependency sets. -/
theorem c5_translate_deterministic (wd1 wd2 : TableauWorkspaceData)
    (h : wd1 = wd2) :
    translateWorkspaceData wd1 = translateWorkspaceData wd2
    ∧ (translateWorkspaceData wd1).map AssetSpecModel.key
      = (translateWorkspaceData wd2).map AssetSpecModel.key
    ∧ (translateWorkspaceData wd1).map AssetSpecModel.deps
      = (translateWorkspaceData wd2).map AssetSpecModel.deps := by
  subst h
  exact ⟨rfl, rfl, rfl⟩

/-- Witness for C5 at the sample workspace data. -/
theorem c5_witness :
    translateWorkspaceData sampleWd = translateWorkspaceData sampleWd
    ∧ (translateWorkspaceData sampleWd).map AssetSpecModel.key
      = (translateWorkspaceData sampleWd).map AssetSpecModel.key
    ∧ (translateWorkspaceData sampleWd).map AssetSpecModel.deps
      = (translateWorkspaceData sampleWd).map AssetSpecModel.deps :=
  c5_translate_deterministic sampleWd sampleWd rfl

/-- C1: the source `get_client` context manager has no try/finally, so when
the body raises after a successful sign-in (here: the workbooks request
fails with HTTP 500), the exception propagates and `sign_out` is never
called — the session-end step does not run on this exit path. -/
theorem c1_signout_skipped_when_body_raises :
    fetch_tableau_workspace_data remoteBodyFails "site" freshCtx
      = .error (.httpError 500)
        ⟨⟨some "token", some "site-id", none, []⟩,
         [.signInCall, .workbooksCall]⟩
    ∧ CallEvent.signOutCall ∉
        (resultCtx (fetch_tableau_workspace_data remoteBodyFails "site"
          freshCtx)).events :=
  ⟨rfl, by decide⟩

/-- C6: if `sign_in` fails during a fetch cycle, the error surfaces to the
caller, no workspace data or descriptors are produced, and no `sign_out`
call is attempted: the trace holds exactly the failed sign-in request. -/
theorem c6_auth_failure_no_descriptors_no_signout (r : Remote)
    (st : ClientState) (site : String) (e : PyError)
    (h : r.signin_response = .error e) :
    fetch_tableau_workspace_data r site ⟨st, []⟩
      = .error e ⟨st, [.signInCall]⟩
    ∧ build_asset_specs r site ⟨st, []⟩ = .error e ⟨st, [.signInCall]⟩
    ∧ CallEvent.signOutCall ∉
        (resultCtx (fetch_tableau_workspace_data r site ⟨st, []⟩)).events := by
  have h1 : fetch_tableau_workspace_data r site ⟨st, []⟩
      = .error e ⟨st, [.signInCall]⟩ := by
    simp [fetch_tableau_workspace_data, sign_in, h]
  refine ⟨h1, ?_, ?_⟩
  · simp [build_asset_specs, h1]
  · rw [h1]
    simp [resultCtx]

/-- Witness for C6: a remote rejecting the sign-in with HTTP 401. -/
theorem c6_witness :
    fetch_tableau_workspace_data remoteAuthFails "site" ⟨freshCtx.client, []⟩
      = .error (.httpError 401) ⟨freshCtx.client, [.signInCall]⟩
    ∧ build_asset_specs remoteAuthFails "site" ⟨freshCtx.client, []⟩
      = .error (.httpError 401) ⟨freshCtx.client, [.signInCall]⟩
    ∧ CallEvent.signOutCall ∉
        (resultCtx (fetch_tableau_workspace_data remoteAuthFails "site"
          ⟨freshCtx.client, []⟩)).events :=
  c6_auth_failure_no_descriptors_no_signout remoteAuthFails freshCtx.client
    "site" (.httpError 401) rfl

/-- C7 counterexample: a second `sign_out` after the session has ended is
not a no-op — the source issues the signout request unconditionally, so the
second call performs another remote request (now without a token) and, on a
remote rejecting it, raises instead of returning silently. -/
theorem c7_second_signout_not_noop :
    sign_out remoteStrictSignout signedInCtx
      = .ok () ⟨⟨none, none, none, []⟩, [.signOutCall]⟩
    ∧ sign_out remoteStrictSignout
        (resultCtx (sign_out remoteStrictSignout signedInCtx))
      = .error (.httpError 401)
        ⟨⟨none, none, none, []⟩, [.signOutCall, .signOutCall]⟩ :=
  ⟨rfl, rfl⟩

/-- C7 amended: every call to `sign_out` — first or repeated — issues one
signout request; after any successful call the session token and site id
are invalidated. -/
theorem c7_amended_signout_always_requests_and_invalidates (r : Remote)
    (s : Ctx) :
    (resultCtx (sign_out r s)).events = s.events ++ [CallEvent.signOutCall]
    ∧ (∀ a s2, sign_out r s = .ok a s2 →
        s2.client.api_token = none ∧ s2.client.site_id = none) := by
  constructor
  · unfold sign_out resultCtx
    cases r.signout_response s.client.api_token <;> simp
  · intro a s2 hok
    unfold sign_out at hok
    cases hr : r.signout_response s.client.api_token with
    | error e =>
      rw [hr] at hok
      cases hok
    | ok u =>
      rw [hr] at hok
      cases hok
      exact ⟨rfl, rfl⟩

/-- Witness for C7 amended: one successful signout from a signed-in client. -/
theorem c7_amended_witness :
    (resultCtx (sign_out remoteHealthy signedInCtx)).events
      = signedInCtx.events ++ [CallEvent.signOutCall]
    ∧ ((⟨⟨none, none, none, []⟩, [CallEvent.signOutCall]⟩ : Ctx).client.api_token
        = none
      ∧ (⟨⟨none, none, none, []⟩, [CallEvent.signOutCall]⟩ : Ctx).client.site_id
        = none) :=
  ⟨(c7_amended_signout_always_requests_and_invalidates remoteHealthy
      signedInCtx).1,
   (c7_amended_signout_always_requests_and_invalidates remoteHealthy
      signedInCtx).2 () ⟨⟨none, none, none, []⟩, [CallEvent.signOutCall]⟩ rfl⟩

/-- C9 counterexample: after a full successful fetch cycle the session has
ended (token cleared) but the `@cached_method` caches are not cleared, and a
second fetch cycle on the same client reuses the cached workbook data: the
trace of two cycles holds two sign-in/sign-out rounds but only one workbooks
request — the second cycle is not a full re-fetch. -/
theorem c9_cache_not_cleared_on_session_end :
    afterCycle1.client.api_token = none
    ∧ afterCycle1.client.workbooks_cache = some workbooksIndexResponse
    ∧ afterCycle2.events.count CallEvent.signOutCall = 2
    ∧ afterCycle2.events.count CallEvent.workbooksCall = 1
    ∧ afterCycle2.events.count (CallEvent.workbookCall (.str "W1")) = 1 :=
  ⟨rfl, rfl, rfl, rfl, rfl⟩

/-- C9 amended: the memoization caches of `get_workbooks`/`get_workbook` are
owned by the client instance but are NOT cleared on session end: `sign_out`
leaves both caches exactly as they were, on every outcome of the signout
request. -/
theorem c9_amended_signout_preserves_caches (r : Remote) (s : Ctx) :
    (resultCtx (sign_out r s)).client.workbooks_cache
      = s.client.workbooks_cache
    ∧ (resultCtx (sign_out r s)).client.workbook_cache
      = s.client.workbook_cache := by
  unfold sign_out resultCtx
  cases r.signout_response s.client.api_token <;> simp

/-- C3 counterexample: a top-level view whose `luid` is null is silently
skipped, exactly like the nested sub-reference null-id case — the build
succeeds with no error, registers no view, and still registers the
workbook and the nested data source.  The null-id tolerance is not limited
to nested sub-references. -/
theorem c3_null_view_id_silently_skipped :
    processWorkbookList ⟨[], [], []⟩ nullLuidPairs = .ok nullLuidAcc
    ∧ nullLuidAcc.views_by_id = []
    ∧ nullLuidAcc.workbooks_by_id ≠ []
    ∧ dictKeys nullLuidAcc.data_sources_by_id = [.str "X"] :=
  ⟨rfl, rfl, by decide, rfl⟩

/-- C3 amended: a view missing its `luid` field surfaces an error
immediately (a `KeyError`, never silently skipped); a view whose `luid` is
present but null is tolerated as skip-not-fail — the same tolerance the
nested sub-reference null-id case receives — leaving the view dict
unchanged. -/
theorem c3_amended_missing_vs_null_view_id (wb : JValue)
    (acc : TableauDict × TableauDict) (fs : JFields) :
    (fs.lookup "luid" = none →
      processSheet wb acc (.obj fs) = .error (.keyError "luid"))
    ∧ (∀ i acc2, fs.lookup "luid" = some i → i.truthy = false →
        processSheet wb acc (.obj fs) = .ok acc2 → acc2.1 = acc.1) := by
  constructor
  · intro h
    simp [processSheet, pySubscript, h]
  · intro i acc2 h2 h3 h4
    unfold processSheet at h4
    have hsub : pySubscript (.obj fs) "luid" = .ok i := by
      simp [pySubscript, h2]
    simp only [hsub] at h4
    simp only [h3, Bool.false_eq_true, if_false] at h4
    cases hg : pyDictGet (.obj fs) "parentEmbeddedDatasources" (.arr .nil) with
    | error e => simp [hg] at h4
    | ok val =>
      simp only [hg] at h4
      cases hi : pyIter val with
      | error e => simp [hi] at h4
      | ok el =>
        simp only [hi] at h4
        cases hel : embeddedRegisterList acc.2 el with
        | error e => simp [hel] at h4
        | ok ds =>
          simp only [hel, Except.ok.injEq] at h4
          rw [← h4]

/-- Witness for C3 amended: a sheet without a `luid` field errors; the
null-luid sheet is processed without error and registers no view. -/
theorem c3_amended_witness :
    processSheet (.str "W2") ([], []) (.obj noLuidFields)
      = .error (.keyError "luid")
    ∧ processSheet (.str "W2") ([], []) (.obj nullSheetFields) = .ok nsAcc
    ∧ nsAcc.1 = [] :=
  ⟨(c3_amended_missing_vs_null_view_id (.str "W2") ([], []) noLuidFields).1
      rfl,
   rfl,
   (c3_amended_missing_vs_null_view_id (.str "W2") ([], [])
      nullSheetFields).2 .null nsAcc rfl rfl rfl⟩

/-- C8: a nested sub-reference whose id is null is skipped without error —
the registration step returns the dict unchanged and raises nothing — and
the item descriptor receives zero dependencies from such entries: a view
whose mentioned published data source ids are all non-truthy, or with no
sub-references at all, yields an empty dependency set. -/
theorem c8_null_subref_skipped_empty_deps (d : TableauDict) (fs : JFields)
    (i : JValue) (props : JValue) :
    (fs.lookup "luid" = some i → i.truthy = false →
      dsRegister d (.obj fs) = .ok d)
    ∧ ((∀ j ∈ (publishedOfSheet props).map fun p => p.getD "luid" .null,
        j.truthy = false) →
      (get_asset_spec ⟨.VIEW, props⟩).deps = [])
    ∧ (props.getD "parentEmbeddedDatasources" (.arr .nil) = .arr .nil →
      (get_asset_spec ⟨.VIEW, props⟩).deps = []) := by
  refine ⟨?_, ?_, ?_⟩
  · intro h1 h2
    simp [dsRegister, pySubscript, h1, h2]
  · intro h
    have hnil : viewDepLuids props = [] := by
      rw [viewDepLuids, List.filter_eq_nil_iff]
      intro a ha
      simp [h a ha]
    simp [get_asset_spec, hnil]
  · intro h
    have hempty : publishedOfSheet props = [] := by
      rw [publishedOfSheet, h]
      simp [JValue.asList, JArray.toList]
    have hnil : viewDepLuids props = [] := by
      simp [viewDepLuids, hempty]
    simp [get_asset_spec, hnil]

/-- Witness for C8: the null-id published data source payload and a view
with no sub-reference field. -/
theorem c8_witness :
    dsRegister [] (.obj (jobj [("luid", JValue.null),
      ("name", .str "Unpublished")])) = .ok []
    ∧ (get_asset_spec ⟨.VIEW, .obj (jobj [("luid", .str "V")])⟩).deps = [] :=
  ⟨(c8_null_subref_skipped_empty_deps [] (jobj [("luid", JValue.null),
      ("name", .str "Unpublished")]) .null
      (.obj (jobj [("luid", .str "V")]))).1 rfl rfl,
   (c8_null_subref_skipped_empty_deps [] (jobj [("luid", JValue.null),
      ("name", .str "Unpublished")]) .null
      (.obj (jobj [("luid", .str "V")]))).2.2 rfl⟩

/-- C10: a view registered in the snapshot is stored under its luid with
its property bag equal to the fetched sheet payload extended with a
`workbook` entry holding the enclosing workbook id; every other field of
the sheet payload passes through unchanged. -/
theorem c10_view_properties_augmented_with_workbook (wb : JValue)
    (acc acc2 : TableauDict × TableauDict) (fs : JFields) (i : JValue)
    (h : processSheet wb acc (.obj fs) = .ok acc2)
    (h2 : fs.lookup "luid" = some i) (h3 : i.truthy = true) :
    dictLookup acc2.1 i
      = some ⟨.VIEW, .obj (fs.set "workbook" (.obj (.cons "luid" wb .nil)))⟩
    ∧ (fs.set "workbook" (.obj (.cons "luid" wb .nil))).lookup "workbook"
      = some (.obj (.cons "luid" wb .nil))
    ∧ ∀ k, k ≠ "workbook" →
        (fs.set "workbook" (.obj (.cons "luid" wb .nil))).lookup k
          = fs.lookup k := by
  refine ⟨?_, JFields.lookup_set_self fs _ _,
    fun k hk => JFields.lookup_set_ne fs _ k _ hk⟩
  unfold processSheet at h
  have hsub : pySubscript (.obj fs) "luid" = .ok i := by
    simp [pySubscript, h2]
  simp only [hsub] at h
  simp only [h3, if_true] at h
  simp only [pyMergeField] at h
  unfold pyDictSet at h
  cases hh : i.hashable with
  | false => simp [hh] at h
  | true =>
    simp only [hh, if_true] at h
    cases hg : pyDictGet (.obj fs) "parentEmbeddedDatasources" (.arr .nil) with
    | error e => simp [hg] at h
    | ok val =>
      simp only [hg] at h
      cases hi : pyIter val with
      | error e => simp [hi] at h
      | ok el =>
        simp only [hi] at h
        cases hel : embeddedRegisterList acc.2 el with
        | error e => simp [hel] at h
        | ok ds =>
          simp only [hel, Except.ok.injEq] at h
          rw [← h]
          exact dictLookup_set_self acc.1 i _

/-- Witness for C10: sheet `A` under workbook `W1`. -/
theorem c10_witness :
    processSheet (.str "W1") ([], []) (.obj sheetAFields) = .ok c10Acc
    ∧ dictLookup c10Acc.1 (.str "A")
      = some ⟨.VIEW, .obj (sheetAFields.set "workbook"
          (.obj (.cons "luid" (.str "W1") .nil)))⟩
    ∧ (sheetAFields.set "workbook"
        (.obj (.cons "luid" (.str "W1") .nil))).lookup "workbook"
      = some (.obj (.cons "luid" (.str "W1") .nil)) :=
  ⟨rfl,
   (c10_view_properties_augmented_with_workbook (.str "W1") ([], []) c10Acc
      sheetAFields (.str "A") rfl rfl rfl).1,
   (c10_view_properties_augmented_with_workbook (.str "W1") ([], []) c10Acc
      sheetAFields (.str "A") rfl rfl rfl).2.1⟩
